import Mathlib

/-!
Verification development for the autopilot zero-downtime deployment plugin
(`src/autopilot.go`).

The program plans and executes compensating-action sequences against a remote
application platform.  We embed it shallowly:

* `CliOp` is the set of primitive platform operations the plugin issues
  (`rename`, `push`, `start`, `stop`, `delete`, the existence query behind
  `DoesAppExist`, and `apps` listing).
* An environment `Env` is an oracle fixing the outcome of each primitive
  operation (existence-query answers, per-operation errors) and the outcome of
  command-line parsing, which the spec places out of scope.
* A Go closure stored in a `rewind.Action` denotes a function
  `Env → OpResult`: the ordered list of primitive operations it issues plus
  its outcome (a returned `error` value, or a process exit via `fatalIf`).

The planner functions `getActionsForRollback`, `getActionsForExistingApp`,
`getActionsForNewApp` and `getActionsForPush`, the driver `Run`, and the
client-side `DoesAppExist` are translated from `src/autopilot.go`.  The
`rewind` sequencer is imported by the source but its code is not part of the
source tree; `runReverses`/`execGo`/`executeActions` are modelled from the
spec (§4.1).
-/

namespace Autopilot

/-- Primitive operations issued against the remote application platform,
one constructor per `ApplicationRepo` method that reaches the platform. -/
inductive CliOp
  | rename (oldName newName : String)
  | push (name manifestPath appPath : String)
  | start (name : String)
  | stop (name : String)
  | delete (name : String)
  | doesExist (name : String)
  | list
  deriving DecidableEq, Repr

/-- Outcome of running one Go closure: a returned `error` value
(`ret none` = nil error), or a process exit through `fatalIf`. -/
inductive ClosOut
  | ret (err : Option String)
  | fatal (msg : String)
  deriving DecidableEq, Repr

/-- Denotation of one Go closure run: the primitive operations it issued, in
order, and its outcome. -/
structure OpResult where
  trace : List CliOp
  out : ClosOut
  deriving DecidableEq, Repr

/-- `AutopilotOptions` from the source: the one recognized option. -/
structure AutopilotOptions where
  KeepExisting : Bool
  deriving DecidableEq, Repr

/-- Environment oracle: the platform's answer to each existence query
(`DoesAppExist`), the error result of each other primitive operation
(`none` = success), and the outcome of `ParseArgs` (command-line flag
parsing is out of scope per the spec §1; its result — app name, manifest
path, app path, options — is an input here). -/
structure Env where
  doesExistRes : String → Except String Bool
  opRes : CliOp → Option String
  parseArgs : Except String (String × String × String × AutopilotOptions)

/-- A closure that issues exactly one primitive operation and returns its
error result. -/
def runOp (env : Env) (op : CliOp) : OpResult :=
  ⟨[op], .ret (env.opRes op)⟩

/-- `rewind.Action`: a forward closure and an optional reverse-previous
closure. -/
structure Action where
  forward : Env → OpResult
  reversePrevious : Option (Env → OpResult)

instance : Inhabited Action :=
  ⟨⟨fun _ => ⟨[], .ret none⟩, none⟩⟩

/-- `venerableAppName` from the source. -/
def venerableAppName (appName : String) : String :=
  appName ++ "-venerable"

/-- `rollbackAppName` from the source. -/
def rollbackAppName (appName : String) : String :=
  appName ++ "-rollback"

/-- `getActionsForRollback` from the source (its `appRepo` receiver is the
environment; its `args` parameter is unused in the source). -/
def getActionsForRollback (appName : String) : List Action :=
  [ -- Rename live app
    { forward := fun env => runOp env (.rename appName (rollbackAppName appName)),
      reversePrevious :=
        some (fun env => runOp env (.rename (rollbackAppName appName) appName)) },
    -- Rename venerable app
    { forward := fun env => runOp env (.rename (venerableAppName appName) appName),
      reversePrevious :=
        some (fun env => runOp env (.rename appName (venerableAppName appName))) },
    -- Start rollback app
    { forward := fun env => runOp env (.start appName),
      reversePrevious := none },
    -- Delete rolled back app
    { forward := fun env => runOp env (.delete (rollbackAppName appName)),
      reversePrevious := none } ]

/-- `getActionsForExistingApp` from the source.  The first action's forward
closure calls `DoesAppExist` at execution time (`fatalIf` on a query error),
deleting the stale venerable entity only when the query answers true. -/
def getActionsForExistingApp (appName manifestPath appPath : String)
    (options : AutopilotOptions) : List Action :=
  [ -- delete old version if it still exists
    { forward := fun env =>
        match env.doesExistRes (venerableAppName appName) with
        | .error e => ⟨[.doesExist (venerableAppName appName)], .fatal e⟩
        | .ok true =>
            ⟨[.doesExist (venerableAppName appName),
              .delete (venerableAppName appName)],
             .ret (env.opRes (.delete (venerableAppName appName)))⟩
        | .ok false => ⟨[.doesExist (venerableAppName appName)], .ret none⟩,
      reversePrevious := none },
    -- rename
    { forward := fun env => runOp env (.rename appName (venerableAppName appName)),
      reversePrevious := none },
    -- push
    { forward := fun env => runOp env (.push appName manifestPath appPath),
      reversePrevious :=
        some (fun env =>
          -- the source discards DeleteApplication's error before renaming
          ⟨[.delete appName, .rename (venerableAppName appName) appName],
           .ret (env.opRes (.rename (venerableAppName appName) appName))⟩) },
    -- delete/stop
    { forward := fun env =>
        if options.KeepExisting then
          runOp env (.stop (venerableAppName appName))
        else
          runOp env (.delete (venerableAppName appName)),
      reversePrevious := none } ]

/-- `getActionsForNewApp` from the source. -/
def getActionsForNewApp (appName manifestPath appPath : String) : List Action :=
  [ -- push
    { forward := fun env => runOp env (.push appName manifestPath appPath),
      reversePrevious := none } ]

/-- Outcome of a planning call that may terminate the process via `fatalIf`. -/
inductive PlanOut
  | fatal (msg : String)
  | planned (actions : List Action)

/-- `getActionsForPush` from the source: parse arguments (`fatalIf` on
error), query whether the target app exists (`fatalIf` on error), then
dispatch to the existing-app or new-app planner.  Returns the primitive
operations issued during planning together with the outcome. -/
def getActionsForPush (env : Env) : List CliOp × PlanOut :=
  match env.parseArgs with
  | .error e => ([], .fatal e)
  | .ok (appName, manifestPath, appPath, options) =>
    match env.doesExistRes appName with
    | .error e => ([.doesExist appName], .fatal e)
    | .ok true =>
        ([.doesExist appName],
         .planned (getActionsForExistingApp appName manifestPath appPath options))
    | .ok false =>
        ([.doesExist appName],
         .planned (getActionsForNewApp appName manifestPath appPath))

/-- `rewind.Actions`: an ordered action list plus the failure message used
when compensation itself fails. -/
structure ActionsSeq where
  Actions : List Action
  RewindFailureMessage : String

/-- Outcome of the whole sequencer run: a final `error` value, or a process
exit propagated from a `fatalIf` inside a closure. -/
inductive ExecOut
  | done (err : Option String)
  | fatalExit (msg : String)
  deriving DecidableEq, Repr

/-- Outcome of the compensation pass. -/
inductive RevOut
  | finished (anyErr : Bool)
  | fatalExit (msg : String)
  deriving DecidableEq, Repr

/-- Modelled from the spec: the `rewind` sequencer's compensation pass
(§4.1 step 3), whose code is not in the source tree.  `completed` holds the
actions whose forward operations succeeded, most recent first; each one's
`reversePrevious`, when set, is run in that order and errors are collected. -/
def runReverses (env : Env) : List Action → List CliOp × RevOut
  | [] => ([], .finished false)
  | act :: rest =>
    match act.reversePrevious with
    | none => runReverses env rest
    | some r =>
      let res := r env
      match res.out with
      | .fatal m => (res.trace, .fatalExit m)
      | .ret e =>
        let k := runReverses env rest
        match k.2 with
        | .fatalExit m => (res.trace ++ k.1, .fatalExit m)
        | .finished b => (res.trace ++ k.1, .finished (b || e.isSome))

/-- Modelled from the spec: the `rewind` sequencer's forward loop (§4.1),
whose code is not in the source tree.  Runs forwards in order; on the first
forward failure, compensates the completed actions in reverse order and
returns the original error alone when all reverses succeed, or a combined
error carrying the configured failure message when a reverse also fails. -/
def execGo (env : Env) (failMsg : String) :
    List Action → List Action → List CliOp × ExecOut
  | _, [] => ([], .done none)
  | completed, act :: rest =>
    let r := act.forward env
    match r.out with
    | .fatal m => (r.trace, .fatalExit m)
    | .ret none =>
      let k := execGo env failMsg (act :: completed) rest
      (r.trace ++ k.1, k.2)
    | .ret (some e) =>
      let k := runReverses env completed
      match k.2 with
      | .fatalExit m => (r.trace ++ k.1, .fatalExit m)
      | .finished anyErr =>
        (r.trace ++ k.1,
         .done (some (if anyErr then e ++ ": " ++ failMsg else e)))

/-- Modelled from the spec: `rewind.Actions.Execute` (§4.1). -/
def executeActions (env : Env) (a : ActionsSeq) : List CliOp × ExecOut :=
  execGo env a.RewindFailureMessage [] a.Actions

/-- The fixed `RewindFailureMessage` the driver configures. -/
def rewindFailureMessage : String :=
  "Oh no. Something's gone wrong. I've tried to roll back but you should check to see if everything is OK."

/-- Result of one driver run: the primitive operations issued against the
platform in order, the lines printed by `Run` itself on the success path,
and `some msg` when the process exited through `fatalIf msg`. -/
structure RunResult where
  ops : List CliOp
  printed : List String
  exit : Option String
  deriving DecidableEq, Repr

/-- `Run` from the source (`AutopilotPlugin.Run`): dispatch on the command
name, check rollback preconditions, plan, execute, and on success print a
blank line, the scenario's success message, a blank line, then list
applications. An argument vector naming neither command leaves the action
list empty and the success message at its zero value `""`. -/
def Run (env : Env) (args : List String) : RunResult :=
  let appName := args.getD 1 ""
  let dispatch : List CliOp × PlanOut × String :=
    if args.getD 0 "" = "zero-downtime-push" then
      match getActionsForPush env with
      | (ops, po) =>
        (ops, po, "A new version of your application has successfully been pushed!")
    else if args.getD 0 "" = "zero-downtime-rollback" then
      let successMessage := "Your application has been successfully rolled back!"
      match env.doesExistRes appName with
      | .error e => ([.doesExist appName], .fatal e, successMessage)
      | .ok appExists =>
        match env.doesExistRes (venerableAppName appName) with
        | .error e =>
            ([.doesExist appName, .doesExist (venerableAppName appName)],
             .fatal e, successMessage)
        | .ok venerableAppExists =>
          let ops : List CliOp :=
            [.doesExist appName, .doesExist (venerableAppName appName)]
          if !appExists then
            (ops,
             .fatal ("Live version of app \"" ++ appName ++ "\" not found, cannot rollback."),
             successMessage)
          else if !venerableAppExists then
            (ops,
             .fatal ("Venerable version of \"" ++ appName ++ "\" not found, cannot rollback. Make sure you push with the --keep-existing-app flag to leave the venerable version behind."),
             successMessage)
          else
            (ops, .planned (getActionsForRollback appName), successMessage)
    else
      ([], .planned [], "")
  match dispatch with
  | (preOps, .fatal m, _) => ⟨preOps, [], some m⟩
  | (preOps, .planned actionList, successMessage) =>
    match executeActions env ⟨actionList, rewindFailureMessage⟩ with
    | (t, .fatalExit m) => ⟨preOps ++ t, [], some m⟩
    | (t, .done (some e)) => ⟨preOps ++ t, [], some e⟩
    | (t, .done none) =>
      let printed := ["", successMessage, ""]
      match env.opRes .list with
      | some e => ⟨preOps ++ t ++ [.list], printed, some e⟩
      | none => ⟨preOps ++ t ++ [.list], printed, none⟩

/-- A decoded JSON value as `json.Unmarshal` produces it into
`map[string]interface{}`: numbers decode to `float64` (represented here by a
rational), and only the `num` case passes the `.(float64)` type assertion. -/
inductive JVal
  | num (q : ℚ)
  | str (s : String)
  | boolean (b : Bool)
  | null
  | obj
  | arr
  deriving DecidableEq, Repr

/-- Environment for one `DoesAppExist` call: the result of
`GetCurrentSpace` (the space guid), the error of the `curl` CLI command, and
the result of `json.Unmarshal` on the joined response (the decoded top-level
object as a key/value list). -/
structure ExistEnv where
  spaceRes : Except String String
  curlRes : Option String
  unmarshalRes : Except String (List (String × JVal))

/-- `DoesAppExist` from the source: fetch the current space, `curl` the apps
query for the name in that space, decode the JSON, and report true exactly
when `total_results` is the number 1; a missing or non-numeric
`total_results` yields false with an error. -/
def DoesAppExist (ee : ExistEnv) (appName : String) : Bool × Option String :=
  match ee.spaceRes with
  | .error e => (false, some e)
  | .ok guid =>
    let _path := "v2/apps?q=name:" ++ appName ++ "&q=space_guid:" ++ guid
    match ee.curlRes with
    | some e => (false, some e)
    | none =>
      match ee.unmarshalRes with
      | .error e => (false, some e)
      | .ok output =>
        match output.lookup "total_results" with
        | none => (false, some "Missing total_results from api response")
        | some (.num q) => (decide (q = 1), none)
        | some v => (false, some ("total_results didn't have a number " ++ reprStr v))

/-- What an entity slot on the platform holds: an application that existed
before the run (abstract identity `id`), or a build pushed during the run. -/
inductive AppVal
  | preexisting (id : ℕ)
  | pushed (name manifestPath appPath : String)
  deriving DecidableEq, Repr

/-- Idealized success-case effect of one platform operation on the
name-to-application state (start/stop/queries do not move entities). -/
def applyOp (s : String → Option AppVal) : CliOp → (String → Option AppVal)
  | .rename o n => fun x => if x = n then s o else if x = o then none else s x
  | .delete n => fun x => if x = n then none else s x
  | .push n m p => fun x => if x = n then some (.pushed n m p) else s x
  | _ => s

/-- Effect of a list of operations, applied left to right. -/
def applyOps (s : String → Option AppVal) (ops : List CliOp) :
    String → Option AppVal :=
  ops.foldl applyOp s

/-- Whether a primitive operation is an existence query. -/
def isExistQuery : CliOp → Bool
  | .doesExist _ => true
  | _ => false

/-- The existence queries an action's forward closure issues in `env`. -/
def fwdQueries (env : Env) (act : Action) : List CliOp :=
  (act.forward env).trace.filter isExistQuery

/-- The existence queries an action's reverse closure issues in `env`
(empty when no reverse is set). -/
def revQueries (env : Env) (act : Action) : List CliOp :=
  match act.reversePrevious with
  | none => []
  | some r => (r env).trace.filter isExistQuery

/-- The names a primitive operation refers to. -/
def opNames : CliOp → List String
  | .rename o n => [o, n]
  | .push n _ _ => [n]
  | .start n => [n]
  | .stop n => [n]
  | .delete n => [n]
  | .doesExist n => [n]
  | .list => []

/-! ### Environments used as concrete witnesses -/

/-- Environment in which every existence query answers true and every
operation succeeds. -/
def envAllTrue : Env :=
  ⟨fun _ => .ok true, fun _ => none, .ok ("foo", "m.yml", "", ⟨false⟩)⟩

/-- Environment in which every existence query answers false and every
operation succeeds. -/
def envAllFalse : Env :=
  ⟨fun _ => .ok false, fun _ => none, .ok ("foo", "m.yml", "", ⟨false⟩)⟩

/-- Environment in which deleting `foo` fails but everything else
succeeds, with every existence query answering true. -/
def envDeleteFooFails : Env :=
  ⟨fun _ => .ok true,
   fun op => if op = .delete "foo" then some "delete failed" else none,
   .ok ("foo", "m.yml", "", ⟨false⟩)⟩

/-! ### Basic name lemmas -/

theorem venerableAppName_ne (a : String) : venerableAppName a ≠ a := by
  intro h
  have := congrArg String.length h
  simp [venerableAppName, String.length_append] at this
  exact absurd this (by decide)

theorem rollbackAppName_ne (a : String) : rollbackAppName a ≠ a := by
  intro h
  have := congrArg String.length h
  simp [rollbackAppName, String.length_append] at this
  exact absurd this (by decide)

/-! ### Sequencer unfolding lemmas -/

theorem execGo_cons_ok (env : Env) (fm : String) (completed : List Action)
    (act : Action) (rest : List Action)
    (h : (act.forward env).out = .ret none) :
    execGo env fm completed (act :: rest) =
      ((act.forward env).trace ++ (execGo env fm (act :: completed) rest).1,
       (execGo env fm (act :: completed) rest).2) := by
  simp only [execGo]
  rw [h]

theorem execGo_cons_err (env : Env) (fm : String) (completed : List Action)
    (act : Action) (rest : List Action) (e : String)
    (h : (act.forward env).out = .ret (some e)) :
    execGo env fm completed (act :: rest) =
      ((act.forward env).trace ++ (runReverses env completed).1,
       match (runReverses env completed).2 with
       | .fatalExit m => .fatalExit m
       | .finished anyErr =>
           .done (some (if anyErr then e ++ ": " ++ fm else e))) := by
  simp only [execGo]
  rw [h]
  cases hk : (runReverses env completed).2 <;> rfl

theorem execGo_cons_fatal (env : Env) (fm : String) (completed : List Action)
    (act : Action) (rest : List Action) (m : String)
    (h : (act.forward env).out = .fatal m) :
    execGo env fm completed (act :: rest) = ((act.forward env).trace, .fatalExit m) := by
  simp only [execGo]
  rw [h]

theorem runReverses_cons_none (env : Env) (act : Action) (rest : List Action)
    (h : act.reversePrevious = none) :
    runReverses env (act :: rest) = runReverses env rest := by
  simp only [runReverses, h]

/-- Whatever the outcomes of the second action and the rest, the execution
trace of a sequence whose first action succeeds and carries no reverse
starts with the first two forward traces in order. -/
theorem executeActions_trace_cons_cons (env : Env) (fm : String)
    (a0 a1 : Action) (rest : List Action)
    (h0 : (a0.forward env).out = .ret none)
    (hrev : a0.reversePrevious = none) :
    ∃ t, (executeActions env ⟨a0 :: a1 :: rest, fm⟩).1 =
      (a0.forward env).trace ++ (a1.forward env).trace ++ t := by
  rw [executeActions]
  rw [execGo_cons_ok env fm [] a0 (a1 :: rest) h0]
  cases h1 : (a1.forward env).out with
  | fatal m =>
    rw [execGo_cons_fatal env fm [a0] a1 rest m h1]
    exact ⟨[], by simp⟩
  | ret e =>
    cases e with
    | none =>
      rw [execGo_cons_ok env fm [a0] a1 rest h1]
      exact ⟨(execGo env fm [a1, a0] rest).1, by simp⟩
    | some e =>
      rw [execGo_cons_err env fm [a0] a1 rest e h1]
      rw [runReverses_cons_none env a0 [] hrev]
      exact ⟨[], by simp [runReverses]⟩

/-! ### Claim theorems -/

/-- Claim C3: for every app name, rollback planning produces exactly four
Actions in this order: rename `A` to `A-rollback` with reverse renaming
`A-rollback` back to `A`; rename `A-venerable` to `A` with reverse renaming
`A` back to `A-venerable`; start `A` with no reverse; delete `A-rollback`
with no reverse. -/
theorem rollback_plan_shape (a : String) (env : Env) :
    (getActionsForRollback a).length = 4 ∧
    ((getActionsForRollback a).getD 0 default).forward env =
      ⟨[.rename a (rollbackAppName a)],
       .ret (env.opRes (.rename a (rollbackAppName a)))⟩ ∧
    ((getActionsForRollback a).getD 0 default).reversePrevious.map (fun r => r env) =
      some ⟨[.rename (rollbackAppName a) a],
            .ret (env.opRes (.rename (rollbackAppName a) a))⟩ ∧
    ((getActionsForRollback a).getD 1 default).forward env =
      ⟨[.rename (venerableAppName a) a],
       .ret (env.opRes (.rename (venerableAppName a) a))⟩ ∧
    ((getActionsForRollback a).getD 1 default).reversePrevious.map (fun r => r env) =
      some ⟨[.rename a (venerableAppName a)],
            .ret (env.opRes (.rename a (venerableAppName a)))⟩ ∧
    ((getActionsForRollback a).getD 2 default).forward env =
      ⟨[.start a], .ret (env.opRes (.start a))⟩ ∧
    ((getActionsForRollback a).getD 2 default).reversePrevious = none ∧
    ((getActionsForRollback a).getD 3 default).forward env =
      ⟨[.delete (rollbackAppName a)],
       .ret (env.opRes (.delete (rollbackAppName a)))⟩ ∧
    ((getActionsForRollback a).getD 3 default).reversePrevious = none :=
  ⟨rfl, rfl, rfl, rfl, rfl, rfl, rfl, rfl, rfl⟩

/-- Claim C5: in the replace-existing plan, the last Action's forward
operation stops `A-venerable` when `keepExisting` is true and deletes
`A-venerable` when it is false, and this Action has no reverse operation. -/
theorem retire_step_stop_or_delete (a m p : String) (o : AutopilotOptions)
    (env : Env) :
    ((getActionsForExistingApp a m p o).getD 3 default).forward env =
      ⟨[if o.KeepExisting then .stop (venerableAppName a)
        else .delete (venerableAppName a)],
       .ret (env.opRes (if o.KeepExisting then .stop (venerableAppName a)
                        else .delete (venerableAppName a)))⟩ ∧
    ((getActionsForExistingApp a m p o).getD 3 default).reversePrevious = none := by
  refine ⟨?_, rfl⟩
  cases h : o.KeepExisting <;>
    simp [getActionsForExistingApp, runOp, h]

/-- Claim C2: in the replace-existing plan, the reverse operation attached
to the push step (the third Action) deletes the application named `A` and
then renames `A-venerable` back to `A`; on the platform state this restores
under the live name `A` whatever `A-venerable` held (the original live
application) and leaves nothing under `A-venerable`. -/
theorem push_step_reverse_restores (a m p : String) (o : AutopilotOptions)
    (env : Env) :
    ((getActionsForExistingApp a m p o).getD 2 default).reversePrevious.map
        (fun r => r env) =
      some ⟨[.delete a, .rename (venerableAppName a) a],
            .ret (env.opRes (.rename (venerableAppName a) a))⟩ ∧
    (∀ s : String → Option AppVal,
      applyOps s [.delete a, .rename (venerableAppName a) a] a
        = s (venerableAppName a) ∧
      applyOps s [.delete a, .rename (venerableAppName a) a]
        (venerableAppName a) = none) := by
  refine ⟨rfl, fun s => ⟨?_, ?_⟩⟩ <;>
    simp [applyOps, applyOp, venerableAppName_ne a]

/-- Claim C1: for every app name, manifest path, app path and options, when
the target application already exists the planner produces exactly four
Actions; the first Action's forward operation queries `A-venerable` and
deletes it when present (no-op otherwise), and in the executed trace that
delete precedes the second Action's rename of `A` to `A-venerable`. -/
theorem replace_existing_plan_shape (a m p : String) (o : AutopilotOptions)
    (env : Env) :
    (env.parseArgs = .ok (a, m, p, o) → env.doesExistRes a = .ok true →
      getActionsForPush env =
        ([.doesExist a], .planned (getActionsForExistingApp a m p o))) ∧
    (getActionsForExistingApp a m p o).length = 4 ∧
    (env.doesExistRes (venerableAppName a) = .ok true →
      ((getActionsForExistingApp a m p o).getD 0 default).forward env =
        ⟨[.doesExist (venerableAppName a), .delete (venerableAppName a)],
         .ret (env.opRes (.delete (venerableAppName a)))⟩) ∧
    (env.doesExistRes (venerableAppName a) = .ok false →
      ((getActionsForExistingApp a m p o).getD 0 default).forward env =
        ⟨[.doesExist (venerableAppName a)], .ret none⟩) ∧
    ((getActionsForExistingApp a m p o).getD 1 default).forward env =
      ⟨[.rename a (venerableAppName a)],
       .ret (env.opRes (.rename a (venerableAppName a)))⟩ ∧
    (env.doesExistRes (venerableAppName a) = .ok true →
     env.opRes (.delete (venerableAppName a)) = none →
      ∃ t, (executeActions env
              ⟨getActionsForExistingApp a m p o, rewindFailureMessage⟩).1 =
        .doesExist (venerableAppName a) :: .delete (venerableAppName a) ::
          .rename a (venerableAppName a) :: t) := by
  refine ⟨?_, rfl, ?_, ?_, rfl, ?_⟩
  · intro hp ht
    simp [getActionsForPush, hp, ht]
  · intro hv
    simp [getActionsForExistingApp, hv]
  · intro hv
    simp [getActionsForExistingApp, hv]
  · intro hv hd
    have h0 : ((((getActionsForExistingApp a m p o).getD 0 default)).forward env).out
        = .ret none := by
      simp [getActionsForExistingApp, hv, hd]
    obtain ⟨t, ht⟩ := executeActions_trace_cons_cons env rewindFailureMessage
      ((getActionsForExistingApp a m p o).getD 0 default)
      ((getActionsForExistingApp a m p o).getD 1 default)
      [(getActionsForExistingApp a m p o).getD 2 default,
       (getActionsForExistingApp a m p o).getD 3 default]
      h0 rfl
    refine ⟨t, ht.trans ?_⟩
    have hf0 : (((getActionsForExistingApp a m p o).getD 0 default).forward env).trace
        = [.doesExist (venerableAppName a), .delete (venerableAppName a)] := by
      simp [getActionsForExistingApp, hv]
    rw [hf0]
    rfl

/-- Claim C1 witness: concrete instance in the all-true environment. -/
theorem replace_existing_plan_shape_witness :
    ∃ t, (executeActions envAllTrue
            ⟨getActionsForExistingApp "foo" "m.yml" "" ⟨false⟩,
             rewindFailureMessage⟩).1 =
      .doesExist (venerableAppName "foo") :: .delete (venerableAppName "foo") ::
        .rename "foo" (venerableAppName "foo") :: t :=
  (replace_existing_plan_shape "foo" "m.yml" "" ⟨false⟩ envAllTrue).2.2.2.2.2
    rfl rfl

/-- Claim C9: the push step's reverse operation ignores any error from
deleting the half-pushed application `A`: even when `env` makes that delete
fail, the issued trace still contains the rename of `A-venerable` back to
`A` right after the delete, and the closure's returned error is the
rename's error alone. -/
theorem push_step_reverse_ignores_delete_error (a m p : String)
    (o : AutopilotOptions) (env : Env) (e : String)
    (hdel : env.opRes (.delete a) = some e) :
    ((getActionsForExistingApp a m p o).getD 2 default).reversePrevious.map
        (fun r => r env) =
      some ⟨[.delete a, .rename (venerableAppName a) a],
            .ret (env.opRes (.rename (venerableAppName a) a))⟩ :=
  rfl

/-- Claim C9 witness: in the environment where deleting `foo` fails, the
reverse still issues the rename and returns no error. -/
theorem push_step_reverse_ignores_delete_error_witness :
    envDeleteFooFails.opRes (.delete "foo") = some "delete failed" ∧
    ((getActionsForExistingApp "foo" "m.yml" "" ⟨false⟩).getD 2
          default).reversePrevious.map (fun r => r envDeleteFooFails) =
      some ⟨[.delete "foo", .rename (venerableAppName "foo") "foo"], .ret none⟩ := by
  refine ⟨by decide, ?_⟩
  rw [push_step_reverse_ignores_delete_error "foo" "m.yml" "" ⟨false⟩
    envDeleteFooFails "delete failed" (by decide)]
  decide

/-- Claim C6: when the target application does not exist, the planner
produces exactly one Action whose forward operation pushes the application
under its real name with no reverse operation, and no operation in the plan
references the venerable or rollback name derived from the app name. -/
theorem new_app_plan_shape (a m p : String) (o : AutopilotOptions) (env : Env) :
    (env.parseArgs = .ok (a, m, p, o) → env.doesExistRes a = .ok false →
      getActionsForPush env =
        ([.doesExist a], .planned (getActionsForNewApp a m p))) ∧
    (getActionsForNewApp a m p).length = 1 ∧
    ((getActionsForNewApp a m p).getD 0 default).forward env =
      ⟨[.push a m p], .ret (env.opRes (.push a m p))⟩ ∧
    ((getActionsForNewApp a m p).getD 0 default).reversePrevious = none ∧
    ((((getActionsForNewApp a m p).getD 0 default).forward env).trace.map opNames)
        = [[a]] ∧
    venerableAppName a ∉
      ((((getActionsForNewApp a m p).getD 0 default).forward env).trace.map
        opNames).flatten ∧
    rollbackAppName a ∉
      ((((getActionsForNewApp a m p).getD 0 default).forward env).trace.map
        opNames).flatten := by
  refine ⟨?_, rfl, rfl, rfl, rfl, ?_, ?_⟩
  · intro hp hf
    simp [getActionsForPush, hp, hf]
  · simp [getActionsForNewApp, runOp, opNames]
    exact fun h => venerableAppName_ne a h
  · simp [getActionsForNewApp, runOp, opNames]
    exact fun h => rollbackAppName_ne a h

/-- Claim C6 witness: concrete instance in the all-false environment. -/
theorem new_app_plan_shape_witness :
    getActionsForPush envAllFalse =
      ([.doesExist "foo"], .planned (getActionsForNewApp "foo" "m.yml" "")) :=
  (new_app_plan_shape "foo" "m.yml" "" ⟨false⟩ envAllFalse).1 rfl rfl

/-- Claim C4: when a rollback is requested and the live entity `A` or the
venerable entity `A-venerable` does not exist, the driver fails immediately
with the descriptive error; the only platform operations issued are the two
existence queries, so zero Actions execute and the rollback plan is never
run. -/
theorem rollback_preconditions_guard (env : Env) (args : List String)
    (a : String)
    (h0 : args.getD 0 "" = "zero-downtime-rollback")
    (h1 : args.getD 1 "" = a) :
    (∀ b, env.doesExistRes a = .ok false →
      env.doesExistRes (venerableAppName a) = .ok b →
      Run env args =
        ⟨[.doesExist a, .doesExist (venerableAppName a)], [],
         some ("Live version of app \"" ++ a ++ "\" not found, cannot rollback.")⟩) ∧
    (env.doesExistRes a = .ok true →
      env.doesExistRes (venerableAppName a) = .ok false →
      Run env args =
        ⟨[.doesExist a, .doesExist (venerableAppName a)], [],
         some ("Venerable version of \"" ++ a ++ "\" not found, cannot rollback. Make sure you push with the --keep-existing-app flag to leave the venerable version behind.")⟩) := by
  constructor
  · intro b hfa hv
    simp only [Run]
    rw [h0, h1, hfa, hv]
    rw [if_neg (by decide : ¬("zero-downtime-rollback" = "zero-downtime-push"))]
    rfl
  · intro hfa hv
    simp only [Run]
    rw [h0, h1, hfa, hv]
    rw [if_neg (by decide : ¬("zero-downtime-rollback" = "zero-downtime-push"))]
    rfl

/-- Claim C4 witness: rollback of `foo` in the environment where nothing
exists fails with the live-version error after exactly the two queries. -/
theorem rollback_preconditions_guard_witness :
    Run envAllFalse ["zero-downtime-rollback", "foo"] =
      ⟨[.doesExist "foo", .doesExist (venerableAppName "foo")], [],
       some "Live version of app \"foo\" not found, cannot rollback."⟩ :=
  (rollback_preconditions_guard envAllFalse ["zero-downtime-rollback", "foo"]
    "foo" rfl rfl).1 false rfl rfl

/-- Claim C10: an argument vector of at least two entries whose first entry
names neither command is not rejected: the driver executes an empty
sequence, prints the empty success message, lists applications, and exits
without error. -/
theorem unknown_command_noop (env : Env) (args : List String)
    (h2 : 2 ≤ args.length)
    (hp : args.getD 0 "" ≠ "zero-downtime-push")
    (hr : args.getD 0 "" ≠ "zero-downtime-rollback")
    (hl : env.opRes .list = none) :
    Run env args = ⟨[.list], ["", "", ""], none⟩ := by
  simp only [Run]
  rw [if_neg hp, if_neg hr]
  simp [executeActions, execGo, hl]

/-- Claim C10 witness: the unknown command `frobnicate` runs zero actions
and succeeds with an empty message. -/
theorem unknown_command_noop_witness :
    Run envAllTrue ["frobnicate", "foo"] = ⟨[.list], ["", "", ""], none⟩ :=
  unknown_command_noop envAllTrue ["frobnicate", "foo"] (by decide)
    (by decide) (by decide) rfl

/-- Claim C7 counterexample: executing the replace-existing plan for `foo`
performs an existence query against the platform — the first Action's
forward operation queries `foo-venerable` at execution time. -/
theorem plan_execution_performs_existence_query :
    CliOp.doesExist "foo-venerable" ∈
      (executeActions envAllTrue
        ⟨getActionsForExistingApp "foo" "m.yml" "" ⟨false⟩,
         rewindFailureMessage⟩).1 := by
  decide

/-- Claim C7 amended: executing the new-app or rollback plans performs no
existence query, and in the replace-existing plan the only execution-time
existence query is the first Action's check of `A-venerable`; all other
forward and reverse operations query nothing. -/
theorem execution_time_existence_queries (a m p : String)
    (o : AutopilotOptions) (env : Env) :
    ((getActionsForRollback a).map (fwdQueries env) = [[], [], [], []]) ∧
    ((getActionsForRollback a).map (revQueries env) = [[], [], [], []]) ∧
    ((getActionsForNewApp a m p).map (fwdQueries env) = [[]]) ∧
    ((getActionsForNewApp a m p).map (revQueries env) = [[]]) ∧
    ((getActionsForExistingApp a m p o).map (fwdQueries env) =
      [[.doesExist (venerableAppName a)], [], [], []]) ∧
    ((getActionsForExistingApp a m p o).map (revQueries env) =
      [[], [], [], []]) := by
  refine ⟨?_, ?_, ?_, ?_, ?_, ?_⟩
  · simp [getActionsForRollback, fwdQueries, runOp, isExistQuery]
  · simp [getActionsForRollback, revQueries, runOp, isExistQuery]
  · simp [getActionsForNewApp, fwdQueries, runOp, isExistQuery]
  · simp [getActionsForNewApp, revQueries, runOp, isExistQuery]
  · rcases hv : env.doesExistRes (venerableAppName a) with e | b
    · cases hk : o.KeepExisting <;>
        simp [getActionsForExistingApp, fwdQueries, runOp, isExistQuery, hv, hk]
    · cases b <;> cases hk : o.KeepExisting <;>
        simp [getActionsForExistingApp, fwdQueries, runOp, isExistQuery, hv, hk]
  · simp [getActionsForExistingApp, revQueries, runOp, isExistQuery]

/-- Claim C8: the existence check answers true exactly when the decoded
response's `total_results` is the number 1; any other number yields false
without an error; a missing or non-numeric `total_results` yields false
with an error. -/
theorem exists_check_total_results (ee : ExistEnv) (a guid : String)
    (out : List (String × JVal))
    (hs : ee.spaceRes = .ok guid) (hc : ee.curlRes = none)
    (hu : ee.unmarshalRes = .ok out) :
    (∀ q : ℚ, out.lookup "total_results" = some (.num q) →
      DoesAppExist ee a = (decide (q = 1), none)) ∧
    (out.lookup "total_results" = none →
      DoesAppExist ee a = (false, some "Missing total_results from api response")) ∧
    (∀ v, out.lookup "total_results" = some v → (∀ q : ℚ, v ≠ .num q) →
      ∃ e, DoesAppExist ee a = (false, some e)) := by
  refine ⟨?_, ?_, ?_⟩
  · intro q hq
    simp [DoesAppExist, hs, hc, hu, hq]
  · intro hq
    simp [DoesAppExist, hs, hc, hu, hq]
  · intro v hv hnum
    cases v with
    | num q => exact absurd rfl (hnum q)
    | str s =>
        exact ⟨"total_results didn't have a number " ++ reprStr (JVal.str s),
          by simp [DoesAppExist, hs, hc, hu, hv]⟩
    | boolean b =>
        exact ⟨"total_results didn't have a number " ++ reprStr (JVal.boolean b),
          by simp [DoesAppExist, hs, hc, hu, hv]⟩
    | null =>
        exact ⟨"total_results didn't have a number " ++ reprStr JVal.null,
          by simp [DoesAppExist, hs, hc, hu, hv]⟩
    | obj =>
        exact ⟨"total_results didn't have a number " ++ reprStr JVal.obj,
          by simp [DoesAppExist, hs, hc, hu, hv]⟩
    | arr =>
        exact ⟨"total_results didn't have a number " ++ reprStr JVal.arr,
          by simp [DoesAppExist, hs, hc, hu, hv]⟩

/-- Claim C8 witness: a response with `total_results = 1` answers true with
no error. -/
theorem exists_check_total_results_witness :
    DoesAppExist ⟨.ok "guid", none, .ok [("total_results", JVal.num 1)]⟩ "foo"
      = (true, none) := by
  have h := (exists_check_total_results
    ⟨.ok "guid", none, .ok [("total_results", JVal.num 1)]⟩ "foo" "guid"
    [("total_results", JVal.num 1)] rfl rfl rfl).1 1 rfl
  simpa using h

end Autopilot


